import Mathlib

/-!
# FloraAI — verification of the Analysis Flow Controller

A shallow embedding of the two variants of the FloraAI single-page
application:

* `Flora.Multi`  embeds the multi-image controller (`part_000`):
  `handleImageUpload`, `startSimulationAndAnalysis`, `callGemini`,
  `reset`, the language toggle, and the render conditions of the three
  views (landing / processing / result).
* `Flora.Single` embeds the single-image controller (`index.tsx`):
  `handleImageUpload`, `analyzePlant`, `reset`, and the corresponding
  render conditions.

The browser event loop is single threaded: state updates performed in one
synchronous segment (an event handler, or the continuation after an
`await` / promise resolution) are observed together.  A submission is
therefore modelled as the finite trace of observable states, one per
synchronous segment, together with the list of `alert` notifications
fired and the number of external `generateContent` calls issued.

The external model call is modelled by a `CallOutcome` (the call throws,
or resolves with an optional response text) and an abstract `parse`
function standing for `JSON.parse` (`none` = the parse throws).
-/

namespace Flora

/-- Embeds `type Lang = 'zh' | 'en'`. -/
inductive Lang where
  | zh
  | en
  deriving DecidableEq, Repr

/-- Embeds `healthStatus: 'Healthy' | 'Needs Attention' | 'Sick' | 'Unknown'`. -/
inductive HealthStatus where
  | Healthy
  | NeedsAttention
  | Sick
  | Unknown
  deriving DecidableEq, Repr

/-- Embeds `'Low' | 'Medium' | 'High'` — used for both `riskLevel` and `urgency`. -/
inductive Level where
  | Low
  | Medium
  | High
  deriving DecidableEq, Repr

/-- The `care` sub-record of `PlantData`. -/
structure Care where
  light : String
  water : String
  soil : String
  temp : String
  deriving DecidableEq, Repr

/-- The `PlantData` interface: the structured analysis result. -/
structure PlantData where
  name : String
  scientificName : String
  healthStatus : HealthStatus
  riskLevel : Level
  symptoms : List String
  causes : List String
  urgency : Level
  care : Care
  diagnosisSteps : List String
  treatmentIngredients : List String
  funFact : String
  deriving DecidableEq, Repr

/-- An image file produced by the OS file picker: a MIME type and raw bytes. -/
structure File where
  mime : String
  bytes : List Nat
  deriving DecidableEq, Repr

/-- The base64 alphabet. -/
def base64Table : List Char :=
  "ABCDEFGHIJKLMNOPQRSTUVWXYZabcdefghijklmnopqrstuvwxyz0123456789+/".toList

/-- The base64 digit for a 6-bit value. -/
def b64Char (n : Nat) : Char := base64Table.getD n 'A'

/-- Standard base64 of a byte sequence, processed in 3-byte groups with
`'='` padding. -/
def base64Chunks : List Nat → List Char
  | [] => []
  | [a] =>
      let a := a % 256
      [b64Char (a / 4), b64Char (a % 4 * 16), '=', '=']
  | [a, b] =>
      let a := a % 256
      let b := b % 256
      [b64Char (a / 4), b64Char (a % 4 * 16 + b / 16), b64Char (b % 16 * 4), '=']
  | a :: b :: c :: rest =>
      let a' := a % 256
      let b' := b % 256
      let c' := c % 256
      b64Char (a' / 4) :: b64Char (a' % 4 * 16 + b' / 16) ::
        b64Char (b' % 16 * 4 + c' / 64) :: b64Char (c' % 64) :: base64Chunks rest

/-- Embeds `FileReader.readAsDataURL`: produces `data:<mime>;base64,<payload>`. -/
def readAsDataURL (f : File) : String :=
  "data:" ++ f.mime ++ ";base64," ++ String.mk (base64Chunks f.bytes)

/-- How one `ai.models.generateContent` call resolves, seen from the
controller: it throws (network or API error), or it resolves with an
optional response text (`response.text` may be absent). -/
inductive CallOutcome where
  | throws
  | responds (text : Option String)
  deriving DecidableEq, Repr

/-- The body of `callGemini` (`part_000`) after the `generateContent`
call, identical to the tail of `analyzePlant` (`index.tsx`):

`const jsonText = response.text; if (jsonText) { return JSON.parse(jsonText) } return null`

An absent or empty (falsy) `response.text` yields `null`; `JSON.parse`
is the abstract `parse`, and a parse failure (or a throwing call)
propagates as an exception. -/
def callGemini (parse : String → Option PlantData) :
    CallOutcome → Except Unit (Option PlantData)
  | .throws => .error ()
  | .responds none => .ok none
  | .responds (some jsonText) =>
      if jsonText = "" then .ok none
      else
        match parse jsonText with
        | some d => .ok (some d)
        | none => .error ()

/-- The three renderable UI phases. -/
inductive Phase where
  | Idle
  | Processing
  | Result
  deriving DecidableEq, Repr

/-- The observable effects of one submission: the trace of observable
states (one per synchronous segment of the event loop), the `alert`
messages fired, and the number of external analysis calls issued. -/
structure Exec (σ : Type) where
  trace : List σ
  alerts : List String
  calls : Nat
  deriving DecidableEq, Repr

namespace Multi

/-- The string `translations[lang].error` of `part_000`. -/
def errorText : Lang → String
  | .en => "Could not analyze the images. Please try clear photos of a plant."
  | .zh => "无法分析该图片。请上传清晰的植物照片。"

/-- The React state of the `part_000` `App` component:
`lang`, `isProcessing`, `images` (the captured data-URL buffers) and
`data` (the analysis result). -/
structure AppState where
  lang : Lang
  isProcessing : Bool
  images : Option (List String)
  data : Option PlantData
  deriving DecidableEq, Repr

/-- Initial React state: `useState('zh')`, `useState(false)`,
`useState(null)`, `useState(null)`. -/
def initState : AppState :=
  { lang := .zh, isProcessing := false, images := none, data := none }

/-- Which of the three views the `part_000` JSX renders:
landing (`!images`), processing (`images && isProcessing`), result
(`images && data && !isProcessing`).  `none` when no view's condition
holds (blank screen). -/
def renderPhase (s : AppState) : Option Phase :=
  match s.images with
  | none => some .Idle
  | some _ =>
      if s.isProcessing then some .Processing
      else if s.data.isSome then some .Result
      else none

/-- The state after the continuation that resumes when the analysis call
settles (`startSimulationAndAnalysis` after `await callGemini`):
success stores the result, absent result stores nothing, failure clears
the images; `finally` always clears `isProcessing`. -/
def finalState (s2 : AppState) : Except Unit (Option PlantData) → AppState
  | .ok (some d) => { s2 with data := some d, isProcessing := false }
  | .ok none => { s2 with isProcessing := false }
  | .error _ => { s2 with images := none, isProcessing := false }

/-- The alerts fired while the analysis call settles: exactly one
`alert(t.error)` in the `catch` branch, none otherwise. -/
def alertsOf (lang : Lang) : Except Unit (Option PlantData) → List String
  | .ok _ => []
  | .error _ => [errorText lang]

/-- Embeds `handleImageUpload` (`part_000`) together with the asynchronous
continuations it schedules, as a trace of observable states:

* empty selection — the handler returns, no state change, no call;
* otherwise the handler synchronously does `setData(null)` and
  `setIsProcessing(true)` (state `s1`), the joined `Promise.all` of the
  file reads then does `setImages` and enters
  `startSimulationAndAnalysis` up to its `await` (state `s2`),
  and the call's settlement produces the final state. -/
def handleImageUpload (s : AppState) (files : List File) (outcome : CallOutcome)
    (parse : String → Option PlantData) : Exec AppState :=
  if files.isEmpty then { trace := [s], alerts := [], calls := 0 }
  else
    let s1 : AppState := { s with data := none, isProcessing := true }
    let s2 : AppState := { s1 with images := some (files.map readAsDataURL) }
    { trace := [s, s1, s2, finalState s2 (callGemini parse outcome)],
      alerts := alertsOf s.lang (callGemini parse outcome),
      calls := 1 }

/-- Embeds `reset`: `setImages(null); setData(null)`. -/
def reset (s : AppState) : AppState :=
  { s with images := none, data := none }

/-- The language-toggle button: `setLang(lang === 'zh' ? 'en' : 'zh')`. -/
def toggleLanguage (s : AppState) : AppState :=
  { s with lang := if s.lang = .zh then .en else .zh }

/-- The observable states the controller can reach from the initial
state under any serialized sequence of user events (submissions with
arbitrary files and call outcomes, resets, language toggles), including
every intermediate state of a submission's trace. -/
inductive Reachable : AppState → Prop where
  | init : Reachable initState
  | submit {s s' : AppState} (files : List File) (outcome : CallOutcome)
      (parse : String → Option PlantData) :
      Reachable s → s' ∈ (handleImageUpload s files outcome parse).trace →
      Reachable s'
  | rst {s : AppState} : Reachable s → Reachable (reset s)
  | toggle {s : AppState} : Reachable s → Reachable (toggleLanguage s)

end Multi

namespace Single

/-- The string `translations[lang].error` of `index.tsx`. -/
def errorText : Lang → String
  | .en => "Could not analyze the image. Please try a clear photo of a plant."
  | .zh => "无法分析该图片。请上传清晰的植物照片。"

/-- The React state of the `index.tsx` `App` component:
`lang`, `analyzing`, `image` (the captured data URL) and `data`. -/
structure AppState where
  lang : Lang
  analyzing : Bool
  image : Option String
  data : Option PlantData
  deriving DecidableEq, Repr

/-- Initial React state of `index.tsx`. -/
def initState : AppState :=
  { lang := .zh, analyzing := false, image := none, data := none }

/-- Which of the three views the `index.tsx` JSX renders:
landing (`!image`), analyzing (`image && analyzing`), result
(`image && data && !analyzing`); `none` when no condition holds. -/
def renderPhase (s : AppState) : Option Phase :=
  match s.image with
  | none => some .Idle
  | some _ =>
      if s.analyzing then some .Processing
      else if s.data.isSome then some .Result
      else none

/-- The state after `analyzePlant`'s `await` settles: success stores the
parsed data, a falsy response text stores nothing, the `catch` clears
the image; `finally` always clears `analyzing`. -/
def finalState (s1 : AppState) : Except Unit (Option PlantData) → AppState
  | .ok (some d) => { s1 with data := some d, analyzing := false }
  | .ok none => { s1 with analyzing := false }
  | .error _ => { s1 with image := none, analyzing := false }

/-- Alerts fired while `analyzePlant`'s call settles: exactly one
`alert(t.error)` in the `catch`, none otherwise. -/
def alertsOf (lang : Lang) : Except Unit (Option PlantData) → List String
  | .ok _ => []
  | .error _ => [errorText lang]

/-- Embeds `handleImageUpload` (`index.tsx`) with its asynchronous
continuations, as a trace of observable states:

* `e.target.files?.[0]` absent — the handler returns, no state change;
* otherwise the handler only starts the `FileReader` (the state at the
  end of the handler's synchronous segment is unchanged, trace index 1),
  the reader's `onloadend` continuation does `setImage` and runs
  `analyzePlant` up to its `await` (`setAnalyzing(true)`,
  `setData(null)`, state `s1` at trace index 2), and the call's
  settlement produces the final state. -/
def handleImageUpload (s : AppState) (files : List File) (outcome : CallOutcome)
    (parse : String → Option PlantData) : Exec AppState :=
  match files.head? with
  | none => { trace := [s], alerts := [], calls := 0 }
  | some file =>
      let s1 : AppState :=
        { s with image := some (readAsDataURL file), analyzing := true, data := none }
      { trace := [s, s, s1, finalState s1 (callGemini parse outcome)],
        alerts := alertsOf s.lang (callGemini parse outcome),
        calls := 1 }

/-- Embeds `reset`: `setImage(null); setData(null)`. -/
def reset (s : AppState) : AppState :=
  { s with image := none, data := none }

/-- The language-toggle button: `setLang(lang === 'zh' ? 'en' : 'zh')`. -/
def toggleLanguage (s : AppState) : AppState :=
  { s with lang := if s.lang = .zh then .en else .zh }

/-- The observable states the `index.tsx` controller can reach from its
initial state under any serialized sequence of user events, including
every intermediate state of a submission's trace. -/
inductive Reachable : AppState → Prop where
  | init : Reachable initState
  | submit {s s' : AppState} (files : List File) (outcome : CallOutcome)
      (parse : String → Option PlantData) :
      Reachable s → s' ∈ (handleImageUpload s files outcome parse).trace →
      Reachable s'
  | rst {s : AppState} : Reachable s → Reachable (reset s)
  | toggle {s : AppState} : Reachable s → Reachable (toggleLanguage s)

end Single

/-- One block of the result view's right-hand column, in JSX order.  The
summary cards, care grid and treatment-plan timeline are rendered
unconditionally; the registered-active-ingredients block is guarded by
`data.treatmentIngredients.length > 0` (identical in both files). -/
inductive ResultSection where
  | summary
  | careGrid
  | diagnosisTimeline
  | treatment (ingredients : List String)
  deriving DecidableEq, Repr

/-- The list of sections the result view renders for a given analysis
result, mirroring the JSX of the result state. -/
def resultSections (d : PlantData) : List ResultSection :=
  [ResultSection.summary, ResultSection.careGrid, ResultSection.diagnosisTimeline] ++
    (if d.treatmentIngredients.length > 0 then
      [ResultSection.treatment d.treatmentIngredients]
    else [])

/-- A concrete analysis result, used to instantiate executions. -/
def samplePlant : PlantData :=
  { name := "Monstera", scientificName := "Monstera deliciosa",
    healthStatus := .Healthy, riskLevel := .Low,
    symptoms := [], causes := [], urgency := .Low,
    care := { light := "Bright indirect", water := "Weekly",
              soil := "Well-draining", temp := "18-27C" },
    diagnosisSteps := ["Observe"], treatmentIngredients := [],
    funFact := "Its leaves split as it matures." }

end Flora

namespace Flora

/-- The `finally` clause of `startSimulationAndAnalysis` clears the
processing flag whatever the call outcome. -/
theorem Multi.finalState_isProcessing (s2 : Multi.AppState)
    (r : Except Unit (Option PlantData)) :
    (Multi.finalState s2 r).isProcessing = false := by
  cases r with
  | ok o => cases o <;> rfl
  | error e => rfl

/-- The `finally` clause of `analyzePlant` clears the analyzing flag
whatever the call outcome. -/
theorem Single.finalState_analyzing (s1 : Single.AppState)
    (r : Except Unit (Option PlantData)) :
    (Single.finalState s1 r).analyzing = false := by
  cases r with
  | ok o => cases o <;> rfl
  | error e => rfl

/-- C1: the claim says a malformed or empty model response is treated
identically to an external-call failure (alert fired, images discarded,
back to Idle, and never a state outside Idle/Processing/Result).  The
code refutes the empty-response half: in both controllers a submission
whose call resolves with empty response text fires no alert, keeps the
captured images, and ends with images set, no data and the processing
flag cleared — a state in which none of the three views renders. -/
theorem emptyResponse_not_treated_as_failure :
    (Multi.handleImageUpload Multi.initState [⟨"image/png", []⟩]
        (.responds (some "")) (fun _ => none)).alerts = [] ∧
    (Multi.handleImageUpload Multi.initState [⟨"image/png", []⟩]
        (.responds (some "")) (fun _ => none)).trace.getLast? =
      some { lang := .zh, isProcessing := false,
             images := some ["data:image/png;base64,"], data := none } ∧
    Multi.renderPhase
      { lang := .zh, isProcessing := false,
        images := some ["data:image/png;base64,"], data := none } = none ∧
    (Single.handleImageUpload Single.initState [⟨"image/png", []⟩]
        (.responds (some "")) (fun _ => none)).alerts = [] ∧
    (Single.handleImageUpload Single.initState [⟨"image/png", []⟩]
        (.responds (some "")) (fun _ => none)).trace.getLast? =
      some { lang := .zh, analyzing := false,
             image := some "data:image/png;base64,", data := none } ∧
    Single.renderPhase
      { lang := .zh, analyzing := false,
        image := some "data:image/png;base64,", data := none } = none := by
  decide

/-- C2: every failing analysis call (the external call or `JSON.parse`
throws) is caught: exactly one localized error alert fires, the captured
images are discarded, the stored data is null, and both controllers end
in a state rendering the Idle (landing) view — never Result. -/
theorem failed_call_reaches_idle_with_one_alert
    (s : Multi.AppState) (u : Single.AppState) (files : List File)
    (outcome : CallOutcome) (parse : String → Option PlantData)
    (hne : files ≠ []) (herr : callGemini parse outcome = .error ()) :
    (Multi.handleImageUpload s files outcome parse).alerts = [Multi.errorText s.lang] ∧
    (Multi.handleImageUpload s files outcome parse).trace.length = 4 ∧
    (Multi.handleImageUpload s files outcome parse).trace.get? 3 =
      some { lang := s.lang, isProcessing := false, images := none, data := none } ∧
    Multi.renderPhase { lang := s.lang, isProcessing := false, images := none, data := none } =
      some Phase.Idle ∧
    (Single.handleImageUpload u files outcome parse).alerts = [Single.errorText u.lang] ∧
    (Single.handleImageUpload u files outcome parse).trace.length = 4 ∧
    (Single.handleImageUpload u files outcome parse).trace.get? 3 =
      some { lang := u.lang, analyzing := false, image := none, data := none } ∧
    Single.renderPhase { lang := u.lang, analyzing := false, image := none, data := none } =
      some Phase.Idle := by
  cases files with
  | nil => exact absurd rfl hne
  | cons f fs =>
    refine ⟨?_, ?_, ?_, rfl, ?_, ?_, ?_, rfl⟩ <;>
      simp [Multi.handleImageUpload, Single.handleImageUpload, herr,
        Multi.finalState, Single.finalState, Multi.alertsOf, Single.alertsOf]

/-- C2 witness: a concrete throwing call from the initial states. -/
theorem failed_call_reaches_idle_with_one_alert_witness :
    ([(⟨"image/png", []⟩ : File)] ≠ ([] : List File)) ∧
    callGemini (fun _ => none) CallOutcome.throws = .error () ∧
    (Multi.handleImageUpload Multi.initState [⟨"image/png", []⟩]
        CallOutcome.throws (fun _ => none)).alerts = [Multi.errorText Lang.zh] :=
  ⟨by decide, rfl,
    (failed_call_reaches_idle_with_one_alert Multi.initState Single.initState
      [⟨"image/png", []⟩] CallOutcome.throws (fun _ => none)
      (by decide) rfl).1⟩

/-- C3: every successful call with non-empty response text that parses
fires no alert and puts both controllers in the Result state, the stored
data being exactly the parsed response. -/
theorem successful_call_reaches_result_with_parsed_data
    (s : Multi.AppState) (u : Single.AppState) (files : List File)
    (text : String) (parse : String → Option PlantData) (d : PlantData)
    (hne : files ≠ []) (ht : text ≠ "") (hp : parse text = some d) :
    (Multi.handleImageUpload s files (.responds (some text)) parse).alerts = [] ∧
    (Multi.handleImageUpload s files (.responds (some text)) parse).trace.get? 3 =
      some { lang := s.lang, isProcessing := false,
             images := some (files.map readAsDataURL), data := some d } ∧
    Multi.renderPhase
      { lang := s.lang, isProcessing := false,
        images := some (files.map readAsDataURL), data := some d } =
      some Phase.Result ∧
    (Single.handleImageUpload u files (.responds (some text)) parse).alerts = [] ∧
    (Single.handleImageUpload u files (.responds (some text)) parse).trace.get? 3 =
      some { lang := u.lang, analyzing := false,
             image := (files.head?).map readAsDataURL, data := some d } := by
  have hcall : callGemini parse (.responds (some text)) = .ok (some d) := by
    simp [callGemini, ht, hp]
  cases files with
  | nil => exact absurd rfl hne
  | cons f fs =>
    refine ⟨?_, ?_, ?_, ?_, ?_⟩ <;>
      simp [Multi.handleImageUpload, Single.handleImageUpload, hcall,
        Multi.finalState, Single.finalState, Multi.alertsOf, Single.alertsOf,
        Multi.renderPhase]

/-- C3 witness: a concrete successful call whose response text parses to
a concrete `PlantData`. -/
theorem successful_call_reaches_result_with_parsed_data_witness :
    ([(⟨"image/png", []⟩ : File)] ≠ ([] : List File)) ∧
    ("ok" ≠ "") ∧
    (fun t => if t = "ok" then some samplePlant else none) "ok" = some samplePlant ∧
    (Multi.handleImageUpload Multi.initState [⟨"image/png", []⟩]
        (.responds (some "ok"))
        (fun t => if t = "ok" then some samplePlant else none)).trace.get? 3 =
      some { lang := .zh, isProcessing := false,
             images := some ["data:image/png;base64,"], data := some samplePlant } :=
  ⟨by decide, by decide, by simp,
    (successful_call_reaches_result_with_parsed_data Multi.initState Single.initState
      [⟨"image/png", []⟩] "ok"
      (fun t => if t = "ok" then some samplePlant else none) samplePlant
      (by decide) (by decide) (by simp)).2.1⟩

/-- C4 counterexample: the claim says a second file-selection event
arriving while the controller is Processing is rejected as a no-op and
starts no second external call.  In the code `handleImageUpload` never
consults the processing flag: from a state rendering the Processing
view, a non-empty selection changes the state and issues another
external call. -/
theorem second_submit_while_processing_not_rejected :
    Multi.renderPhase
      { lang := .zh, isProcessing := true,
        images := some ["data:image/png;base64,"], data := none } =
      some Phase.Processing ∧
    (Multi.handleImageUpload
      { lang := .zh, isProcessing := true,
        images := some ["data:image/png;base64,"], data := none }
      [⟨"image/jpeg", []⟩] CallOutcome.throws (fun _ => none)).calls = 1 ∧
    (Multi.handleImageUpload
      { lang := .zh, isProcessing := true,
        images := some ["data:image/png;base64,"], data := none }
      [⟨"image/jpeg", []⟩] CallOutcome.throws (fun _ => none)).trace ≠
      [{ lang := .zh, isProcessing := true,
         images := some ["data:image/png;base64,"], data := none }] := by
  decide

/-- C4 (amended): `handleImageUpload` guards only on the file list, not
on the Processing phase: an empty selection is a no-op (no state change,
no call), and every non-empty selection — including one arriving while
Processing — clears the stored result and issues exactly one further
external call. -/
theorem submit_guard_only_rejects_empty_selection
    (s : Multi.AppState) (files : List File) (outcome : CallOutcome)
    (parse : String → Option PlantData) :
    (Multi.handleImageUpload s files outcome parse).calls =
      (if files.isEmpty then 0 else 1) ∧
    (files.isEmpty = true → (Multi.handleImageUpload s files outcome parse).trace = [s]) ∧
    (files.isEmpty = false →
      (Multi.handleImageUpload s files outcome parse).trace.get? 1 =
        some { s with data := none, isProcessing := true }) := by
  refine ⟨?_, ?_, ?_⟩ <;>
    by_cases hf : files.isEmpty <;>
      simp [Multi.handleImageUpload, hf]

/-- C4 witness: the amended guard behaviour at concrete inputs. -/
theorem submit_guard_only_rejects_empty_selection_witness :
    (Multi.handleImageUpload Multi.initState [] CallOutcome.throws (fun _ => none)).calls = 0 ∧
    (([] : List File).isEmpty = true →
      (Multi.handleImageUpload Multi.initState [] CallOutcome.throws (fun _ => none)).trace =
        [Multi.initState]) :=
  ⟨(submit_guard_only_rejects_empty_selection Multi.initState [] CallOutcome.throws
      (fun _ => none)).1,
   (submit_guard_only_rejects_empty_selection Multi.initState [] CallOutcome.throws
      (fun _ => none)).2.1⟩

/-- C5 counterexample: the claim says submitting moves the ViewState
from Idle to Processing synchronously on the submit event.  In both
controllers the state observable at the end of the submit handler's
synchronous segment (trace index 1) still renders the Idle landing view:
in `part_000` the handler sets the processing flag but the Processing
view also requires `images`, which are only set in the asynchronous
file-read continuation; in `index.tsx` the handler changes no state at
all. -/
theorem processing_entry_not_synchronous_with_submit :
    (Multi.handleImageUpload Multi.initState [⟨"image/png", []⟩]
        CallOutcome.throws (fun _ => none)).trace.get? 1 =
      some { lang := .zh, isProcessing := true, images := none, data := none } ∧
    Multi.renderPhase
      { lang := .zh, isProcessing := true, images := none, data := none } =
      some Phase.Idle ∧
    (Single.handleImageUpload Single.initState [⟨"image/png", []⟩]
        CallOutcome.throws (fun _ => none)).trace.get? 1 = some Single.initState ∧
    Single.renderPhase Single.initState = some Phase.Idle := by
  decide

/-- C5 (amended): for every non-empty selection the Processing phase is
entered strictly before the external call resolves — the observable
state after the file-read continuation (trace index 2) renders the
Processing view, for every call outcome, and only the final observable
state (trace index 3) has the processing flag cleared; the multi-image
controller sets its processing flag synchronously in the submit handler
(trace index 1), but the rendered Idle-to-Processing transition happens
in the asynchronous file-read continuation, not on the submit event
itself. -/
theorem processing_entered_before_call_resolves
    (s : Multi.AppState) (u : Single.AppState) (files : List File)
    (outcome : CallOutcome) (parse : String → Option PlantData)
    (hne : files ≠ []) :
    (Multi.handleImageUpload s files outcome parse).trace.length = 4 ∧
    ((Multi.handleImageUpload s files outcome parse).trace.get? 1).map
      Multi.AppState.isProcessing = some true ∧
    ((Multi.handleImageUpload s files outcome parse).trace.get? 2).map
      Multi.renderPhase = some (some Phase.Processing) ∧
    ((Multi.handleImageUpload s files outcome parse).trace.get? 3).map
      Multi.AppState.isProcessing = some false ∧
    (Single.handleImageUpload u files outcome parse).trace.length = 4 ∧
    ((Single.handleImageUpload u files outcome parse).trace.get? 2).map
      Single.renderPhase = some (some Phase.Processing) ∧
    ((Single.handleImageUpload u files outcome parse).trace.get? 3).map
      Single.AppState.analyzing = some false := by
  cases files with
  | nil => exact absurd rfl hne
  | cons f fs =>
    refine ⟨?_, ?_, ?_, ?_, ?_, ?_, ?_⟩ <;>
      simp [Multi.handleImageUpload, Single.handleImageUpload,
        Multi.renderPhase, Single.renderPhase,
        Multi.finalState_isProcessing, Single.finalState_analyzing]

/-- C5 witness: the amended ordering at a concrete submission. -/
theorem processing_entered_before_call_resolves_witness :
    ([(⟨"image/png", []⟩ : File)] ≠ ([] : List File)) ∧
    ((Multi.handleImageUpload Multi.initState [⟨"image/png", []⟩]
        CallOutcome.throws (fun _ => none)).trace.get? 2).map
      Multi.renderPhase = some (some Phase.Processing) :=
  ⟨by decide,
    (processing_entered_before_call_resolves Multi.initState Single.initState
      [⟨"image/png", []⟩] CallOutcome.throws (fun _ => none) (by decide)).2.2.1⟩

/-- C6: `reset()` from the Result state yields the Idle (landing) view
with the captured images and the analysis result both cleared, in both
controllers. -/
theorem reset_from_result_yields_idle
    (s : Multi.AppState) (u : Single.AppState)
    (hs : Multi.renderPhase s = some Phase.Result)
    (hu : Single.renderPhase u = some Phase.Result) :
    (Multi.reset s).images = none ∧ (Multi.reset s).data = none ∧
    (Multi.reset s).lang = s.lang ∧
    Multi.renderPhase (Multi.reset s) = some Phase.Idle ∧
    (Single.reset u).image = none ∧ (Single.reset u).data = none ∧
    (Single.reset u).lang = u.lang ∧
    Single.renderPhase (Single.reset u) = some Phase.Idle := by
  exact ⟨rfl, rfl, rfl, rfl, rfl, rfl, rfl, rfl⟩

/-- C6 witness: reset applied to concrete Result states. -/
theorem reset_from_result_yields_idle_witness :
    Multi.renderPhase
      { lang := .zh, isProcessing := false,
        images := some ["data:image/png;base64,"], data := some samplePlant } =
      some Phase.Result ∧
    Single.renderPhase
      { lang := .en, analyzing := false,
        image := some "data:image/png;base64,", data := some samplePlant } =
      some Phase.Result ∧
    Multi.renderPhase
      (Multi.reset
        { lang := .zh, isProcessing := false,
          images := some ["data:image/png;base64,"], data := some samplePlant }) =
      some Phase.Idle :=
  ⟨by decide, by decide,
    (reset_from_result_yields_idle
      { lang := .zh, isProcessing := false,
        images := some ["data:image/png;base64,"], data := some samplePlant }
      { lang := .en, analyzing := false,
        image := some "data:image/png;base64,", data := some samplePlant }
      (by decide) (by decide)).2.2.2.1⟩

/-- C7: toggling the language from any state flips the language and
leaves every ViewState component (captured images, analysis result,
processing flag) and hence the rendered phase unchanged, in both
controllers. -/
theorem toggleLanguage_flips_only_language
    (s : Multi.AppState) (u : Single.AppState) :
    (Multi.toggleLanguage s).lang ≠ s.lang ∧
    (Multi.toggleLanguage s).images = s.images ∧
    (Multi.toggleLanguage s).data = s.data ∧
    (Multi.toggleLanguage s).isProcessing = s.isProcessing ∧
    Multi.renderPhase (Multi.toggleLanguage s) = Multi.renderPhase s ∧
    (Single.toggleLanguage u).lang ≠ u.lang ∧
    (Single.toggleLanguage u).image = u.image ∧
    (Single.toggleLanguage u).data = u.data ∧
    (Single.toggleLanguage u).analyzing = u.analyzing ∧
    Single.renderPhase (Single.toggleLanguage u) = Single.renderPhase u := by
  refine ⟨?_, rfl, rfl, rfl, rfl, ?_, rfl, rfl, rfl, rfl⟩
  · cases hsl : s.lang <;> simp [Multi.toggleLanguage, hsl]
  · cases hul : u.lang <;> simp [Single.toggleLanguage, hul]

/-- C8: for every non-empty selection the buffer list joined before
submission (the `images` stored by the file-read continuation, trace
index 2) is exactly the input files converted in order: same length, and
the i-th buffer is the data-URL conversion of the i-th file. -/
theorem buffers_preserve_file_order
    (s : Multi.AppState) (files : List File) (outcome : CallOutcome)
    (parse : String → Option PlantData) (hne : files ≠ []) :
    ((Multi.handleImageUpload s files outcome parse).trace.get? 2).map
      Multi.AppState.images = some (some (files.map readAsDataURL)) ∧
    (files.map readAsDataURL).length = files.length ∧
    (∀ i : Nat, (files.map readAsDataURL).get? i = (files.get? i).map readAsDataURL) := by
  cases files with
  | nil => exact absurd rfl hne
  | cons f fs =>
    refine ⟨?_, by simp, fun i => ?_⟩
    · simp [Multi.handleImageUpload]
    · exact List.get?_map readAsDataURL (f :: fs) i

/-- C8 witness: two concrete files are converted in order. -/
theorem buffers_preserve_file_order_witness :
    ([(⟨"image/png", [0]⟩ : File), ⟨"image/jpeg", [1]⟩] ≠ ([] : List File)) ∧
    (([(⟨"image/png", [0]⟩ : File), ⟨"image/jpeg", [1]⟩].map readAsDataURL).length = 2) :=
  ⟨by decide,
    ((buffers_preserve_file_order Multi.initState
      [⟨"image/png", [0]⟩, ⟨"image/jpeg", [1]⟩] CallOutcome.throws
      (fun _ => none) (by decide)).2.1).trans (by decide)⟩

/-- C9: the result view renders the treatment-ingredients section if and
only if the analysis result's `treatmentIngredients` list is non-empty;
in particular a healthy result with an empty ingredient list shows no
treatment section. -/
theorem treatment_section_iff_ingredients_nonempty (d : PlantData) :
    (∃ ings, ResultSection.treatment ings ∈ resultSections d) ↔
      d.treatmentIngredients ≠ [] := by
  cases hti : d.treatmentIngredients with
  | nil => simp [resultSections, hti]
  | cons x xs =>
    constructor
    · intro _; simp [hti]
    · intro _
      exact ⟨x :: xs, by simp [resultSections, hti]⟩

/-- Every state in a multi-image submission trace satisfies the
processing invariant (`isProcessing → data = none`) when its start
state does. -/
theorem Multi.mem_trace_data_inv {s s' : Multi.AppState}
    (files : List File) (outcome : CallOutcome) (parse : String → Option PlantData)
    (ih : s.isProcessing = true → s.data = none)
    (hmem : s' ∈ (Multi.handleImageUpload s files outcome parse).trace) :
    s'.isProcessing = true → s'.data = none := by
  by_cases hf : files.isEmpty
  · simp [Multi.handleImageUpload, hf] at hmem
    subst hmem
    exact ih
  · simp [Multi.handleImageUpload, hf] at hmem
    rcases hmem with h | h | h | h
    · subst h; exact ih
    · subst h; intro _; rfl
    · subst h; intro _; rfl
    · subst h
      intro hproc
      rw [Multi.finalState_isProcessing] at hproc
      cases hproc

/-- Every reachable observable state of the multi-image controller with
the processing flag set has no stored result. -/
theorem Multi.reachable_data_inv {s : Multi.AppState} (h : Multi.Reachable s) :
    s.isProcessing = true → s.data = none := by
  induction h with
  | init => intro _; rfl
  | submit files outcome parse hs hmem ih =>
      exact Multi.mem_trace_data_inv files outcome parse ih hmem
  | rst hs ih => intro _; rfl
  | toggle hs ih => exact ih

/-- Every state in a single-image submission trace satisfies the
processing invariant (`analyzing → data = none`) when its start state
does. -/
theorem Single.mem_trace_analyzing_inv {s s' : Single.AppState}
    (files : List File) (outcome : CallOutcome) (parse : String → Option PlantData)
    (ih : s.analyzing = true → s.data = none)
    (hmem : s' ∈ (Single.handleImageUpload s files outcome parse).trace) :
    s'.analyzing = true → s'.data = none := by
  cases files with
  | nil =>
      simp [Single.handleImageUpload] at hmem
      subst hmem
      exact ih
  | cons f fs =>
      simp [Single.handleImageUpload] at hmem
      rcases hmem with h | h | h
      · subst h; exact ih
      · subst h; intro _; rfl
      · subst h
        intro hproc
        rw [Single.finalState_analyzing] at hproc
        cases hproc

/-- Every reachable observable state of the single-image controller
with the analyzing flag set has no stored result. -/
theorem Single.reachable_analyzing_inv {s : Single.AppState} (h : Single.Reachable s) :
    s.analyzing = true → s.data = none := by
  induction h with
  | init => intro _; rfl
  | submit files outcome parse hs hmem ih =>
      exact Single.mem_trace_analyzing_inv files outcome parse ih hmem
  | rst hs ih => intro _; rfl
  | toggle hs ih => exact ih

/-- A multi-image state rendering the Processing view has its
processing flag set. -/
theorem Multi.processing_view_flag {s : Multi.AppState}
    (hp : Multi.renderPhase s = some Phase.Processing) :
    s.isProcessing = true := by
  by_cases hproc : s.isProcessing
  · exact hproc
  · cases him : s.images with
    | none => simp [Multi.renderPhase, him] at hp
    | some l =>
        cases hd : s.data.isSome <;>
          simp [Multi.renderPhase, him, hproc, hd] at hp

/-- A single-image state rendering the Processing view has its
analyzing flag set. -/
theorem Single.analyzing_view_flag {s : Single.AppState}
    (hp : Single.renderPhase s = some Phase.Processing) :
    s.analyzing = true := by
  by_cases hproc : s.analyzing
  · exact hproc
  · cases him : s.image with
    | none => simp [Single.renderPhase, him] at hp
    | some l =>
        cases hd : s.data.isSome <;>
          simp [Single.renderPhase, him, hproc, hd] at hp

/-- C10: in every reachable observable state of either controller that
renders the Processing view, the stored analysis result is null — each
submission clears the previous result before its analysis starts, so a
stale result is never available while an analysis is in flight. -/
theorem processing_view_never_has_stale_result
    (s : Multi.AppState) (u : Single.AppState)
    (hs : Multi.Reachable s) (hu : Single.Reachable u)
    (hps : Multi.renderPhase s = some Phase.Processing)
    (hpu : Single.renderPhase u = some Phase.Processing) :
    s.data = none ∧ u.data = none :=
  ⟨Multi.reachable_data_inv hs (Multi.processing_view_flag hps),
   Single.reachable_analyzing_inv hu (Single.analyzing_view_flag hpu)⟩

/-- C10 witness: the Processing-view state observed during a concrete
submission from the initial state is reachable and carries no result. -/
theorem processing_view_never_has_stale_result_witness :
    Multi.renderPhase
      { lang := .zh, isProcessing := true,
        images := some ["data:image/png;base64,"], data := none } =
      some Phase.Processing ∧
    ({ lang := .zh, isProcessing := true,
       images := some ["data:image/png;base64,"], data := none } : Multi.AppState).data =
      none := by
  have hr : Multi.Reachable
      { lang := .zh, isProcessing := true,
        images := some ["data:image/png;base64,"], data := none } :=
    Multi.Reachable.submit [⟨"image/png", []⟩] CallOutcome.throws (fun _ => none)
      Multi.Reachable.init (by decide)
  have hr1 : Single.Reachable
      { lang := .zh, analyzing := true,
        image := some "data:image/png;base64,", data := none } :=
    Single.Reachable.submit [⟨"image/png", []⟩] CallOutcome.throws (fun _ => none)
      Single.Reachable.init (by decide)
  exact ⟨by decide,
    (processing_view_never_has_stale_result _ _ hr hr1 (by decide) (by decide)).1⟩

end Flora
